import Mathlib

/-!
Verification development for the dictrack repository.

The repository's visible source is its packaging manifest (`setup.py`); the
core library (conditions, trackers, tracker groups, storage backends,
limiters, sweeper) is described by the design specification.  The core is
therefore modelled here from the specification, while `setup.py` is embedded
directly from its source.
-/

namespace Dictrack

/-- Modelled from the spec: values extracted out of nested dictionary-shaped
update data by the path-extraction collaborator (spec section 6).  The
"missing" sentinel for unresolvable paths is `Option.none` at use sites. -/
inductive Value where
  | num (n : Int)
  | str (s : String)
deriving DecidableEq, Repr

/-- Modelled from the spec: the declared comparison operators for numeric
threshold conditions (spec section 4.1). -/
inductive CompOp where
  | ge
  | le
  | eq
  | gt
  | lt
  | ne
deriving DecidableEq, Repr

/-- Applies a comparison operator to an extracted number and a threshold. -/
def CompOp.apply : CompOp → Int → Int → Bool
  | .ge, a, b => a ≥ b
  | .le, a, b => a ≤ b
  | .eq, a, b => a = b
  | .gt, a, b => a > b
  | .lt, a, b => a < b
  | .ne, a, b => a ≠ b

/-- Modelled from the spec: the predicate kinds of a Condition together with
their comparison parameters (spec sections 3 and 4.1): threshold comparison,
cumulative count (with a declared weight), pattern match, and the dedicated
no-update-within-duration kind checked only by the sweeper. -/
inductive PredicateKind where
  | threshold (op : CompOp) (limit : Int)
  | countBased (target : Nat) (weight : Nat)
  | patternMatch (pat : String)
  | noUpdateWithin (duration : Nat)
deriving DecidableEq, Repr

/-- Modelled from the spec: a Condition's attributes (spec section 3):
identifier, target path expression, predicate kind with its parameters,
current progress value, completion flag, fire-once vs. repeatable flag. -/
structure Condition where
  id : String
  path : String
  kind : PredicateKind
  progress : Int
  completed : Bool
  fireOnce : Bool
deriving DecidableEq, Repr

/-- Modelled from the spec (section 4.1): `evaluate` is a pure function of the
condition's current progress state, its predicate kind and the newly
extracted value.  A missing extraction (`none`) skips the condition; a
completed fire-once condition is never mutated again; numeric comparisons set
progress to the extracted value and complete per the declared operator;
count-based conditions add the declared weight to progress and complete when
progress reaches the configured count; pattern conditions complete on first
match; the no-update-within-duration kind never reacts to updates (it is
checked by the sweeper via `checkTimeout`). -/
def Condition.evaluate (c : Condition) (v : Option Value) : Condition :=
  if c.completed && c.fireOnce then c
  else
    match v with
    | none => c
    | some val =>
      match c.kind with
      | .threshold op limit =>
        match val with
        | .num n => { c with progress := n, completed := op.apply n limit }
        | .str _ => c
      | .countBased target weight =>
        let p := c.progress + (weight : Int)
        { c with progress := p, completed := decide ((target : Int) ≤ p) }
      | .patternMatch pat =>
        match val with
        | .str s => if s = pat then { c with progress := 1, completed := true } else c
        | .num _ => c
      | .noUpdateWithin _ => c

/-- Modelled from the spec: explicit reset of a condition clears its progress
and completion state (spec section 3, lifecycle). -/
def Condition.reset (c : Condition) : Condition :=
  { c with progress := 0, completed := false }

/-- Applying a sequence of extracted values to a condition, one evaluate call
per update. -/
def Condition.evalSeq (c : Condition) (vs : List (Option Value)) : Condition :=
  vs.foldl Condition.evaluate c

/-- Modelled from the spec (section 4.1): the dedicated
no-update-within-duration kind exposes `checkTimeout(now)`, invoked only by
the sweeper: the condition completes when no update arrived within the
configured duration. -/
def Condition.checkTimeout (c : Condition) (lastUpdate now : Nat) : Condition :=
  match c.kind with
  | .noUpdateWithin duration =>
    if lastUpdate + duration ≤ now then { c with completed := true } else c
  | _ => c

/-- Modelled from the spec: update data fed to `track`, as the finite set of
path bindings the out-of-scope path-extraction collaborator can resolve
(spec section 6). -/
def Data := List (String × Value)

/-- Modelled from the spec (section 6): `extract(data, pathExpression)`
returns the value at the path or the missing sentinel (`none`), never an
exception. -/
def extract (d : Data) (p : String) : Option Value :=
  List.lookup p d

/-- A fresh count-based condition as created at tracker construction from a
declarative definition: zero progress, not completed, counting matching
updates with weight 1 toward the configured count `n`. -/
def freshCount (i pth : String) (n : Nat) (fo : Bool) : Condition :=
  { id := i, path := pth, kind := .countBased n 1, progress := 0,
    completed := false, fireOnce := fo }

/-- Modelled from the spec: a Limiter's attributes (spec section 3): max
trigger count, max active duration, current trigger count, activation
timestamp. -/
structure Limiter where
  maxCount : Nat
  maxDuration : Nat
  count : Nat
  activatedAt : Nat
deriving DecidableEq, Repr

/-- Modelled from the spec (section 4.2): `permit()` returns whether another
firing is allowed, counting the firing when it is. -/
def Limiter.permit (l : Limiter) : Bool × Limiter :=
  if l.count < l.maxCount then (true, { l with count := l.count + 1 })
  else (false, l)

/-- Modelled from the spec (section 4.2): `reset()` clears the limiter's
counters. -/
def Limiter.reset (l : Limiter) : Limiter :=
  { l with count := 0, activatedAt := 0 }

/-- Running a sequence of `n` permit calls, returning how many firings were
permitted together with the final limiter state. -/
def Limiter.permitSeq (l : Limiter) (n : Nat) : Nat × Limiter :=
  match n with
  | 0 => (0, l)
  | n + 1 =>
    let pl := l.permit
    let rest := pl.2.permitSeq n
    ((if pl.1 then 1 else 0) + rest.1, rest.2)

/-- Modelled from the spec: the tracker state machine's states (spec
section 3): `active`, `completed`, `expired`. -/
inductive TrackerState where
  | active
  | completed
  | expired
deriving DecidableEq, Repr

/-- Modelled from the spec: the error taxonomy surfaced to callers (spec
section 7). -/
inductive TrackError where
  | lockTimeout
  | lockLost
  | backendUnavailable
  | invalidCondition
  | terminalStateMutation
deriving DecidableEq, Repr

/-- Modelled from the spec (section 4.3): `track(data)` returns
`TrackResult{state, newlyCompletedConditions}`; a `TerminalStateMutation`
attempt is reported as a no-op result field, not thrown fatally (spec
section 7). -/
structure TrackResult where
  state : TrackerState
  newlyCompleted : List String
  error : Option TrackError
deriving DecidableEq, Repr

/-- Modelled from the spec: a Tracker's attributes (spec section 3): unique
key, ordered collection of Conditions, creation timestamp, last-update
timestamp, dirty flag, state, the conjunctive/disjunctive completion policy,
and an optional tracker-level limiter. -/
structure Tracker where
  key : String
  conditions : List Condition
  createdAt : Nat
  lastUpdateAt : Nat
  dirty : Bool
  state : TrackerState
  conjunctive : Bool
  limiter : Option Limiter
deriving DecidableEq, Repr

/-- One evaluation pass: extract the value at each condition's path from the
update data and call `Condition.evaluate` (spec section 4.3). -/
def Tracker.evalConditions (t : Tracker) (d : Data) : List Condition :=
  t.conditions.map (fun c => c.evaluate (extract d c.path))

/-- The identifiers of the conditions that transitioned to completed in this
call (spec section 4.3). -/
def newlyCompletedIds (before after : List Condition) : List String :=
  ((before.zip after).filter (fun cc => cc.2.completed && !cc.1.completed)).map
    (fun cc => cc.2.id)

/-- Modelled from the spec (section 3): all conditions must be completed
(conjunctive policy) — or any one (disjunctive) — for the tracker to
complete. -/
def completionMet (conjunctive : Bool) (conds : List Condition) : Bool :=
  if conjunctive then conds.all (fun c => c.completed)
  else conds.any (fun c => c.completed)

/-- Modelled from the spec (section 4.3): `Tracker.track(data)`.  Reject
immediately (no-op result carrying `TerminalStateMutation`) if the state is
terminal; evaluate every condition on the extracted values; accumulate the
newly completed conditions; recompute tracker-level completion per the
conjunctive/disjunctive policy; on new completion consult the tracker-level
limiter — if it denies, transition to `expired` instead; mark dirty whenever
internal state changed; update the last-update timestamp. -/
def Tracker.track (t : Tracker) (now : Nat) (d : Data) : Tracker × TrackResult :=
  if t.state ≠ TrackerState.active then
    (t, { state := t.state, newlyCompleted := [],
          error := some TrackError.terminalStateMutation })
  else if completionMet t.conjunctive (t.evalConditions d) then
    match t.limiter with
    | some l =>
      if (l.permit).1 then
        ({ t with
            conditions := t.evalConditions d
            state := TrackerState.completed
            limiter := some (l.permit).2
            dirty := true
            lastUpdateAt := now },
         { state := TrackerState.completed
           newlyCompleted := newlyCompletedIds t.conditions (t.evalConditions d)
           error := none })
      else
        ({ t with
            conditions := t.evalConditions d
            state := TrackerState.expired
            limiter := some (l.permit).2
            dirty := true
            lastUpdateAt := now },
         { state := TrackerState.expired
           newlyCompleted := newlyCompletedIds t.conditions (t.evalConditions d)
           error := none })
    | none =>
      ({ t with
          conditions := t.evalConditions d
          state := TrackerState.completed
          dirty := true
          lastUpdateAt := now },
       { state := TrackerState.completed
         newlyCompleted := newlyCompletedIds t.conditions (t.evalConditions d)
         error := none })
  else
    ({ t with
        conditions := t.evalConditions d
        dirty := t.dirty || decide (t.evalConditions d ≠ t.conditions)
        lastUpdateAt := now },
     { state := TrackerState.active
       newlyCompleted := newlyCompletedIds t.conditions (t.evalConditions d)
       error := none })

/-- Modelled from the spec: a TrackerGroup's attributes (spec section 3):
name (storage namespace), mapping from tracker key to Tracker, default
condition definitions for auto-created trackers, and whether auto-creation
is enabled.  The configured StorageBackend and LockProvider are supplied at
the call sites that use them. -/
structure TrackerGroup where
  name : String
  trackers : List (String × Tracker)
  defaultConditions : List Condition
  autoCreate : Bool
deriving DecidableEq, Repr

/-- Replaces the binding for `k` (first occurrence) or appends it. -/
def upsert (ts : List (String × Tracker)) (k : String) (t : Tracker) :
    List (String × Tracker) :=
  match ts with
  | [] => [(k, t)]
  | kv :: rest => if kv.1 = k then (k, t) :: rest else kv :: upsert rest k t

/-- A fresh tracker created on first `track()` for an unknown key from the
group's default condition definitions (spec section 3, lifecycle). -/
def newTracker (k : String) (defs : List Condition) (now : Nat) : Tracker :=
  { key := k
    conditions := defs
    createdAt := now
    lastUpdateAt := now
    dirty := true
    state := TrackerState.active
    conjunctive := true
    limiter := none }

/-- The result of `TrackerGroup.track`: either a failure surfaced as an
explicit result (spec section 7) or the delegated tracker result. -/
inductive GroupTrackResult where
  | failed (e : TrackError)
  | tracked (r : TrackResult)
deriving DecidableEq, Repr

/-- Modelled from the spec (section 4.4): `TrackerGroup.track(key, data)`
resolves or auto-creates the Tracker for the key, acquires the key's lock
blocking up to the configured timeout (whether acquisition succeeded within
the timeout is an environment input here), delegates to `Tracker.track`,
releases the lock and returns the result; on lock timeout it fails with
`LockTimeout` and does not mutate. -/
def TrackerGroup.track (g : TrackerGroup) (lockAcquired : Bool) (now : Nat)
    (key : String) (d : Data) : TrackerGroup × GroupTrackResult :=
  if !lockAcquired then (g, GroupTrackResult.failed TrackError.lockTimeout)
  else
    match List.lookup key g.trackers with
    | some t =>
      let tr := t.track now d
      ({ g with trackers := upsert g.trackers key tr.1 },
       GroupTrackResult.tracked tr.2)
    | none =>
      if g.autoCreate then
        let tr := (newTracker key g.defaultConditions now).track now d
        ({ g with trackers := upsert g.trackers key tr.1 },
         GroupTrackResult.tracked tr.2)
      else (g, GroupTrackResult.failed TrackError.invalidCondition)

/-- Modelled from the spec: the persisted per-condition record
`{id, kind, params, progress, completed}` (spec section 6); the construction
parameters are the predicate kind with its comparison parameters, the target
path expression and the fire-once flag. -/
structure RecCondition where
  id : String
  path : String
  kind : PredicateKind
  fireOnce : Bool
  progress : Int
  completed : Bool
deriving DecidableEq, Repr

/-- Modelled from the spec: the backend-agnostic persisted record layout per
tracker (spec section 6): `{key, groupNamespace, state, createdAt,
lastUpdateAt, conditions, limiter}`. -/
structure TrackerRecord where
  key : String
  groupNamespace : String
  state : TrackerState
  createdAt : Nat
  lastUpdateAt : Nat
  conditions : List RecCondition
  limiter : Option Limiter
deriving DecidableEq, Repr

/-- Serializes a condition into its persisted record. -/
def Condition.toRecord (c : Condition) : RecCondition :=
  { id := c.id
    path := c.path
    kind := c.kind
    fireOnce := c.fireOnce
    progress := c.progress
    completed := c.completed }

/-- Reconstructs a condition from its persisted record. -/
def RecCondition.toCondition (r : RecCondition) : Condition :=
  { id := r.id
    path := r.path
    kind := r.kind
    fireOnce := r.fireOnce
    progress := r.progress
    completed := r.completed }

/-- Serializes a tracker into its persisted record under a namespace. -/
def Tracker.toRecord (t : Tracker) (ns : String) : TrackerRecord :=
  { key := t.key
    groupNamespace := ns
    state := t.state
    createdAt := t.createdAt
    lastUpdateAt := t.lastUpdateAt
    conditions := t.conditions.map Condition.toRecord
    limiter := t.limiter }

/-- Reconstructs a tracker from its persisted record; the dirty flag is
in-memory bookkeeping and a freshly rehydrated tracker is clean. -/
def TrackerRecord.toTracker (r : TrackerRecord) : Tracker :=
  { key := r.key
    conditions := r.conditions.map RecCondition.toCondition
    createdAt := r.createdAt
    lastUpdateAt := r.lastUpdateAt
    dirty := false
    state := r.state
    conjunctive := true
    limiter := r.limiter }

/-- A backend store entry: namespace, key, record. -/
abbrev StoreEntry := String × String × TrackerRecord

/-- Replaces the record at `(ns, k)` (first occurrence) or appends it. -/
def upsertEntry (s : List StoreEntry) (ns k : String) (r : TrackerRecord) :
    List StoreEntry :=
  match s with
  | [] => [(ns, k, r)]
  | e :: rest =>
    if e.1 = ns ∧ e.2.1 = k then (ns, k, r) :: rest
    else e :: upsertEntry rest ns k r

/-- Modelled from the spec (section 4.5): the StorageBackend variants —
Memory (ordered associative structure), Redis (serialized blob per key),
MongoDB (document per key, upserted). -/
inductive StorageBackend where
  | memory (store : List StoreEntry)
  | redis (store : List StoreEntry)
  | mongo (store : List StoreEntry)
deriving DecidableEq, Repr

/-- The raw entries held by a backend. -/
def StorageBackend.entries : StorageBackend → List StoreEntry
  | .memory s => s
  | .redis s => s
  | .mongo s => s

/-- Modelled from the spec (section 4.5): `save(namespace, key, record)`.
Memory and MongoDB upsert in place (ordered structure / document upsert);
Redis overwrites the single serialized blob stored for the key. -/
def StorageBackend.save (b : StorageBackend) (ns k : String)
    (r : TrackerRecord) : StorageBackend :=
  match b with
  | .memory s => .memory (upsertEntry s ns k r)
  | .redis s =>
    .redis ((ns, k, r) :: s.filter (fun e => !(e.1 = ns ∧ e.2.1 = k : Bool)))
  | .mongo s => .mongo (upsertEntry s ns k r)

/-- Modelled from the spec (section 4.5): `load(namespace)` returns the
collection of tracker records persisted under the namespace, keyed by their
storage key. -/
def StorageBackend.load (b : StorageBackend) (ns : String) :
    List (String × TrackerRecord) :=
  (b.entries.filter (fun e => e.1 = ns)).map (fun e => (e.2.1, e.2.2))

/-- Flushing a single tracker to a backend under a namespace: save its
serialized record under its key. -/
def flushTracker (b : StorageBackend) (ns : String) (t : Tracker) :
    StorageBackend :=
  b.save ns t.key (t.toRecord ns)

/-- Modelled from the spec (section 4.4): rehydration at startup — for each
persisted tracker record in the StorageBackend under this group's namespace,
reconstruct a Tracker with its persisted condition progress and state. -/
def TrackerGroup.rehydrate (b : StorageBackend) (ns : String) : TrackerGroup :=
  { name := ns
    trackers := (b.load ns).map (fun e => (e.1, e.2.toTracker))
    defaultConditions := []
    autoCreate := true }

/-- Clears the dirty flags of all trackers in a group (done when their state
has been written to the backend). -/
def TrackerGroup.clearDirty (g : TrackerGroup) : TrackerGroup :=
  { g with
      trackers := g.trackers.map (fun kv => (kv.1, { kv.2 with dirty := false })) }

/-- Modelled from the spec (sections 4.4 and 7): `flush()` writes all dirty
trackers to the StorageBackend and clears their dirty flags; when the
backend is unreachable (an environment input here) it surfaces
`BackendUnavailable` as an explicit result, dirty trackers remain dirty and
the in-memory state is untouched. -/
def TrackerGroup.flushTo (g : TrackerGroup) (b : StorageBackend)
    (backendUp : Bool) : Except TrackError (TrackerGroup × StorageBackend) :=
  if !backendUp then Except.error TrackError.backendUnavailable
  else
    Except.ok (g.clearDirty,
      g.trackers.foldl
        (fun bb kv => if kv.2.dirty then flushTracker bb g.name kv.2 else bb) b)

/-- Modelled from the spec (section 4.4): `sweepExpired()` removes trackers
in `expired`/`completed` state. -/
def TrackerGroup.sweepExpired (g : TrackerGroup) : TrackerGroup :=
  { g with
      trackers := g.trackers.filter
        (fun kv => kv.2.state = TrackerState.active) }

/-- Modelled from the spec (section 4.7): the step (1) of a sweep — run
`checkTimeout` on all time-based conditions across active trackers. -/
def TrackerGroup.checkTimeConditions (g : TrackerGroup) (now : Nat) :
    TrackerGroup :=
  { g with
      trackers := g.trackers.map (fun kv =>
        if kv.2.state = TrackerState.active then
          (kv.1, { kv.2 with
                    conditions := kv.2.conditions.map
                      (fun c => c.checkTimeout kv.2.lastUpdateAt now) })
        else kv) }

/-- Modelled from the spec (section 4.7): the sweep of one group — (1)
check time-based conditions, (2) flush, (3) sweep expired trackers; a flush
failure propagates as an error out of the group's own sweep. -/
def sweepGroup (now : Nat) (backendUp : Bool) (g : TrackerGroup)
    (b : StorageBackend) : Except TrackError (TrackerGroup × StorageBackend) :=
  match (g.checkTimeConditions now).flushTo b backendUp with
  | Except.error e => Except.error e
  | Except.ok gb => Except.ok (gb.1.sweepExpired, gb.2)

/-- What a whole sweep run reports: which groups' sweep steps ran, and the
errors that were logged (not rethrown) along the way. -/
structure SweepReport where
  sweptGroups : List String
  errors : List (String × TrackError)
deriving DecidableEq, Repr

/-- Modelled from the spec (section 4.7): the periodic sweep over every
configured TrackerGroup (each with its configured backend and that
backend's availability during this run).  Each group's sweep step is
isolated: an error in one group's flush is logged and does not prevent the
next group's sweep from running, and does not crash the scheduler; the
failing group keeps its in-memory (time-checked) state and its backend is
left as it was. -/
def sweepAll (now : Nat)
    (groups : List (TrackerGroup × StorageBackend × Bool)) :
    List (TrackerGroup × StorageBackend) × SweepReport :=
  match groups with
  | [] => ([], { sweptGroups := [], errors := [] })
  | (g, b, up) :: rest =>
    let rr := sweepAll now rest
    match sweepGroup now up g b with
    | Except.ok gb =>
      (gb :: rr.1,
       { sweptGroups := g.name :: rr.2.sweptGroups, errors := rr.2.errors })
    | Except.error e =>
      ((g.checkTimeConditions now, b) :: rr.1,
       { sweptGroups := g.name :: rr.2.sweptGroups
         errors := (g.name, e) :: rr.2.errors })

/-- The per-condition snapshot a round trip must preserve: identifier,
progress value, completion flag. -/
def condSnapshot (c : Condition) : String × Int × Bool :=
  (c.id, c.progress, c.completed)

/-- Tracker equivalence as required of persist-then-load: same state, same
timestamps, same per-condition progress and completion flags. -/
def Tracker.equiv (t t' : Tracker) : Prop :=
  t.state = t'.state ∧ t.createdAt = t'.createdAt ∧
    t.lastUpdateAt = t'.lastUpdateAt ∧
    t.conditions.map condSnapshot = t'.conditions.map condSnapshot

/-- A completed fire-once pattern condition, used as a concrete input. -/
def sampleFireOnceDone : Condition :=
  { id := "c1"
    path := "user.name"
    kind := PredicateKind.patternMatch "alice"
    progress := 1
    completed := true
    fireOnce := true }

/-- A tracker holding the completed fire-once condition, used as a concrete
input. -/
def sampleFireOnceTracker : Tracker :=
  { key := "order-1"
    conditions := [sampleFireOnceDone]
    createdAt := 0
    lastUpdateAt := 3
    dirty := false
    state := TrackerState.active
    conjunctive := true
    limiter := none }

/-- A tracker already in the `completed` terminal state, used as a concrete
input. -/
def sampleCompletedTracker : Tracker :=
  { key := "order-2"
    conditions := [sampleFireOnceDone]
    createdAt := 0
    lastUpdateAt := 4
    dirty := true
    state := TrackerState.completed
    conjunctive := true
    limiter := none }

/-- A fresh limiter allowing at most one firing, used as a concrete input. -/
def sampleFreshLimiter : Limiter :=
  { maxCount := 1, maxDuration := 0, count := 0, activatedAt := 0 }

/-- An exhausted limiter (count at its maximum), used as a concrete input. -/
def sampleSpentLimiter : Limiter :=
  { maxCount := 1, maxDuration := 0, count := 1, activatedAt := 0 }

/-- An active tracker whose single condition is already satisfied and whose
tracker-level limiter is exhausted, used as a concrete input. -/
def sampleLimitedTracker : Tracker :=
  { key := "user-7"
    conditions := [sampleFireOnceDone]
    createdAt := 0
    lastUpdateAt := 5
    dirty := false
    state := TrackerState.active
    conjunctive := true
    limiter := some sampleSpentLimiter }

/-- A count-based condition mid-way through its count, used as a concrete
input. -/
def sampleCountCondition : Condition :=
  { id := "c2"
    path := "cart.items"
    kind := PredicateKind.countBased 3 1
    progress := 1
    completed := false
    fireOnce := false }

/-- A small tracker group with one tracker, used as a concrete input. -/
def sampleGroup : TrackerGroup :=
  { name := "orders"
    trackers := [("order-1", sampleFireOnceTracker)]
    defaultConditions := [sampleCountCondition]
    autoCreate := true }

end Dictrack

namespace SetupPy

/-!
Shallow embedding of the repository's `setup.py`.  The outcomes of the I/O
and import operations the script performs (opening `README.md`, importing
`importlib`, executing `app/dictrack/__init__.py`) are inputs of the
embedding; the script's own control flow is translated from the source.
-/

/-- The Python exception classes relevant to setup.py's control flow. -/
inductive PyExc where
  | typeError
  | fileNotFoundError
  | osError
  | importError
  | attributeError
  | otherExc
deriving DecidableEq, Repr

/-- The attribute bindings produced by executing a Python module file. -/
structure PyModule where
  attrs : List (String × String)
deriving DecidableEq, Repr

/-- The environment setup.py runs in: the results of opening and reading
`README.md` with and without the `encoding` keyword, whether
`importlib.util` is importable (Python 3), and the result of executing the
file `app/dictrack/__init__.py`. -/
structure SetupEnv where
  readmeOpenWithEncoding : Except PyExc String
  readmeOpenPlain : Except PyExc String
  importlibAvailable : Bool
  execVersionFile : Except PyExc PyModule
deriving Repr

/-- Embeds setup.py lines 8-13: `open(README.md, encoding="utf-8")` and read
inside a `try`, retrying without the keyword only when a `TypeError` was
raised; any other exception propagates uncaught. -/
def longDescriptionOf (env : SetupEnv) : Except PyExc String :=
  match env.readmeOpenWithEncoding with
  | Except.ok s => Except.ok s
  | Except.error e =>
    if e = PyExc.typeError then env.readmeOpenPlain else Except.error e

/-- Embeds setup.py lines 16-30 (`get_version`): execute
`app/dictrack/__init__.py` via `importlib` — falling back to `imp`, which
executes the same file, when an `ImportError` is raised inside the `try` —
and return the loaded module's `__version__` attribute. -/
def get_version (env : SetupEnv) : Except PyExc String :=
  let attempt : Except PyExc PyModule :=
    if env.importlibAvailable then env.execVersionFile
    else Except.error PyExc.importError
  let loaded : Except PyExc PyModule :=
    match attempt with
    | Except.error PyExc.importError => env.execVersionFile
    | r => r
  match loaded with
  | Except.error e => Except.error e
  | Except.ok m =>
    match List.lookup "__version__" m.attrs with
    | some v => Except.ok v
    | none => Except.error PyExc.attributeError

/-- The observable arguments of the `setup(...)` call of setup.py that
depend on the script's computations. -/
structure SetupCall where
  name : String
  version : String
  long_description : String
deriving DecidableEq, Repr

/-- Embeds the top-level execution of setup.py: compute `long_description`
(lines 8-13), then call `setup(...)` (lines 33-35) whose `version` argument
is `get_version()`; an exception anywhere aborts the script before the
`setup` call completes. -/
def runSetupPy (env : SetupEnv) : Except PyExc SetupCall :=
  match longDescriptionOf env with
  | Except.error e => Except.error e
  | Except.ok ld =>
    match get_version env with
    | Except.error e => Except.error e
    | Except.ok v =>
      Except.ok { name := "dictrack-fork", version := v, long_description := ld }

/-- A Python 3 environment where README.md reads fine and the version file
defines `__version__`, used as a concrete input. -/
def sampleEnvPy3 : SetupEnv :=
  { readmeOpenWithEncoding := Except.ok "dictrack readme"
    readmeOpenPlain := Except.ok "dictrack readme"
    importlibAvailable := true
    execVersionFile := Except.ok { attrs := [("__version__", "2.0.2")] } }

/-- An environment where README.md is absent, so both open calls raise
FileNotFoundError, used as a concrete input. -/
def sampleEnvNoReadme : SetupEnv :=
  { readmeOpenWithEncoding := Except.error PyExc.fileNotFoundError
    readmeOpenPlain := Except.error PyExc.fileNotFoundError
    importlibAvailable := true
    execVersionFile := Except.ok { attrs := [("__version__", "2.0.2")] } }

end SetupPy

namespace Dictrack

/-- C7: for every Condition and every update whose data does not resolve the
condition's path expression (the extraction collaborator returns the missing
sentinel), evaluating that update leaves the condition's progress and
completed flag unchanged — the condition is skipped, not failed. -/
theorem missing_path_skips_condition (c : Condition) (d : Data) (p : String)
    (h : extract d p = none) : c.evaluate (extract d p) = c := by
  rw [h]
  unfold Condition.evaluate
  split <;> rfl

theorem missing_path_skips_condition_witness :
    extract [] "user.name" = none ∧
      sampleFireOnceDone.evaluate (extract [] "user.name") = sampleFireOnceDone :=
  ⟨rfl, missing_path_skips_condition sampleFireOnceDone [] "user.name" rfl⟩

/-- A completed fire-once condition is never mutated by evaluate. -/
lemma evaluate_frozen (c : Condition) (hfo : c.fireOnce = true)
    (hc : c.completed = true) (v : Option Value) : c.evaluate v = c := by
  unfold Condition.evaluate
  rw [hc, hfo]
  simp

/-- `track` either leaves the condition list unchanged (terminal state) or
replaces it by the one-pass evaluation of every condition. -/
lemma track_conditions_cases (t : Tracker) (now : Nat) (d : Data) :
    (t.track now d).1.conditions = t.conditions ∨
      (t.track now d).1.conditions = t.evalConditions d := by
  unfold Tracker.track
  repeat' split
  all_goals first
    | exact Or.inl rfl
    | exact Or.inr rfl

/-- C2: once a fire-once Condition's completed flag is true, no subsequent
evaluate call (nor the evaluation pass of any `track()` call) changes its
progress value — or any other field — until an explicit reset. -/
theorem fireOnce_completed_progress_frozen (c : Condition)
    (hfo : c.fireOnce = true) (hc : c.completed = true) :
    (∀ vs : List (Option Value), c.evalSeq vs = c) ∧
      (∀ (t : Tracker) (now : Nat) (d : Data),
        c ∈ t.conditions → c ∈ (t.track now d).1.conditions) := by
  have hfrozen : ∀ v, c.evaluate v = c := evaluate_frozen c hfo hc
  constructor
  · intro vs
    induction vs with
    | nil => rfl
    | cons v vs ih =>
      show (c.evaluate v).evalSeq vs = c
      rw [hfrozen v]
      exact ih
  · intro t now d hmem
    rcases track_conditions_cases t now d with h | h
    · rw [h]; exact hmem
    · rw [h]
      exact List.mem_map.mpr ⟨c, hmem, hfrozen _⟩

theorem fireOnce_completed_progress_frozen_witness :
    sampleFireOnceDone.evalSeq [some (Value.str "alice"), none] = sampleFireOnceDone ∧
      sampleFireOnceDone ∈ (sampleFireOnceTracker.track 9 []).1.conditions :=
  ⟨(fireOnce_completed_progress_frozen sampleFireOnceDone rfl rfl).1 _,
   (fireOnce_completed_progress_frozen sampleFireOnceDone rfl rfl).2
     sampleFireOnceTracker 9 [] (by decide)⟩

/-- One evaluate step of a not-yet-frozen count-based condition adds its
weight 1 to progress and completes exactly when the count is reached. -/
lemma evaluate_count_step (c : Condition) (n : Nat) (v : Value)
    (hk : c.kind = PredicateKind.countBased n 1)
    (hnf : c.completed = false ∨ c.fireOnce = false) :
    c.evaluate (some v) =
      { c with
          progress := c.progress + 1
          completed := decide ((n : Int) ≤ c.progress + 1) } := by
  have hcf : (c.completed && c.fireOnce) = false := by
    rcases hnf with h | h <;> simp [h]
  unfold Condition.evaluate
  simp [hcf, hk]

/-- Invariant of a count-based condition along matching updates: if after j
matching updates the completion flag reads `n ≤ j` (and progress is j,
capped at n for a fire-once condition), then after the remaining matching
updates the flag reads `n ≤ j + length`. -/
lemma countBased_evalSeq_completed (n : Nat) (vs : List Value) :
    ∀ (c : Condition) (j : Nat),
      c.kind = PredicateKind.countBased n 1 →
      c.completed = decide (n ≤ j) →
      c.progress = (if c.fireOnce then ((min j n : Nat) : Int) else (j : Int)) →
      (c.evalSeq (vs.map some)).completed = decide (n ≤ j + vs.length) := by
  induction vs with
  | nil =>
    intro c j hk hc hp
    simpa [Condition.evalSeq] using hc
  | cons v vs ih =>
    intro c j hk hc hp
    have hlen : j + (v :: vs).length = (j + 1) + vs.length := by
      simp [List.length_cons]
      omega
    show ((c.evaluate (some v)).evalSeq (vs.map some)).completed = _
    by_cases hfz : c.completed = true ∧ c.fireOnce = true
    · obtain ⟨hcb, hfb⟩ := hfz
      have hdec : true = decide (n ≤ j) := by rw [← hcb, hc]
      have hdone : n ≤ j := of_decide_eq_true hdec.symm
      have hc' : c.completed = decide (n ≤ j + 1) := by
        rw [hcb]
        symm
        simpa using Nat.le_succ_of_le hdone
      have hp' : c.progress =
          (if c.fireOnce then ((min (j + 1) n : Nat) : Int) else ((j + 1 : Nat) : Int)) := by
        rw [hfb] at hp ⊢
        simp only [if_true] at hp ⊢
        rw [hp]
        norm_cast
        omega
      rw [evaluate_frozen c hfb hcb, hlen]
      exact ih c (j + 1) hk hc' hp'
    · have hnf : c.completed = false ∨ c.fireOnce = false := by
        cases hcb : c.completed <;> cases hfb : c.fireOnce <;> simp_all
      have hprogj : c.progress = (j : Int) := by
        rcases hnf with hcb | hfb
        · have hdec := hc
          rw [hcb] at hdec
          have hj : ¬n ≤ j := of_decide_eq_false hdec.symm
          rw [hp]
          split
          · norm_cast
            omega
          · rfl
        · rw [hp, hfb]
          simp
      have heval := evaluate_count_step c n v hk hnf
      have hk' : (c.evaluate (some v)).kind = PredicateKind.countBased n 1 := by
        rw [heval]
        exact hk
      have hc' : (c.evaluate (some v)).completed = decide (n ≤ j + 1) := by
        rw [heval]
        show decide ((n : Int) ≤ c.progress + 1) = decide (n ≤ j + 1)
        rw [hprogj]
        apply decide_eq_decide.mpr
        omega
      have hp' : (c.evaluate (some v)).progress =
          (if (c.evaluate (some v)).fireOnce then ((min (j + 1) n : Nat) : Int)
           else ((j + 1 : Nat) : Int)) := by
        rw [heval]
        show c.progress + 1 = (if c.fireOnce then _ else _)
        rw [hprogj]
        rcases hnf with hcb | hfb
        · have hdec := hc
          rw [hcb] at hdec
          have hj : ¬n ≤ j := of_decide_eq_false hdec.symm
          split
          · norm_cast
            omega
          · norm_cast
        · rw [hfb]
          simp
      rw [hlen]
      exact ih (c.evaluate (some v)) (j + 1) hk' hc' hp'

/-- C1: a count-based Condition with configured threshold n ≥ 1 (weight 1)
reports completed, along any sequence of matching updates, exactly from the
n-th matching update on: after k matching updates its completed flag is
`n ≤ k`, so it first completes on the update at which accumulated progress
reaches n, and on no earlier update. -/
theorem countBased_completes_exactly_at_threshold (n : Nat) (hn : 1 ≤ n)
    (i pth : String) (fo : Bool) (vs : List Value) :
    ((freshCount i pth n fo).evalSeq (vs.map some)).completed
      = decide (n ≤ vs.length) := by
  have h := countBased_evalSeq_completed n vs (freshCount i pth n fo) 0 rfl
    (by simp [freshCount]
        omega)
    (by cases fo <;> simp [freshCount])
  simpa using h

theorem countBased_completes_exactly_at_threshold_witness :
    1 ≤ 2 ∧
      ((freshCount "c3" "clicks" 2 true).evalSeq
          ([Value.num 1, Value.num 1].map some)).completed = decide (2 ≤ 2) :=
  ⟨by decide,
   countBased_completes_exactly_at_threshold 2 (by decide) "c3" "clicks" true
     [Value.num 1, Value.num 1]⟩

/-- C3: a Tracker whose state is `completed` or `expired` leaves its entire
state unchanged on any `track()` call and returns a no-op result reporting
`TerminalStateMutation`, rather than mutating state or raising a fatal
error. -/
theorem terminal_track_is_noop (t : Tracker) (now : Nat) (d : Data)
    (h : t.state = TrackerState.completed ∨ t.state = TrackerState.expired) :
    (t.track now d).1 = t ∧
      (t.track now d).2 =
        { state := t.state
          newlyCompleted := []
          error := some TrackError.terminalStateMutation } := by
  have hne : t.state ≠ TrackerState.active := by
    rcases h with h | h <;> rw [h] <;> simp
  unfold Tracker.track
  simp [hne]

theorem terminal_track_is_noop_witness :
    (sampleCompletedTracker.track 7 []).1 = sampleCompletedTracker ∧
      (sampleCompletedTracker.track 7 []).2 =
        { state := sampleCompletedTracker.state
          newlyCompleted := []
          error := some TrackError.terminalStateMutation } :=
  terminal_track_is_noop sampleCompletedTracker 7 [] (Or.inl rfl)

/-- C4: a `TrackerGroup.track(key, data)` call whose per-key lock cannot be
acquired within the configured timeout fails with `LockTimeout` and leaves
the group's trackers — in particular the tracker for that key — exactly as
they were before the call. -/
theorem lock_timeout_does_not_mutate (g : TrackerGroup) (now : Nat)
    (key : String) (d : Data) :
    g.track false now key d = (g, GroupTrackResult.failed TrackError.lockTimeout) := by
  unfold TrackerGroup.track
  simp

/-- Looking up in a store whose first `(ns, k)` entry was just replaced (or
appended) yields the new record. -/
lemma lookup_load_upsertEntry (s : List StoreEntry) (ns k : String)
    (r : TrackerRecord) :
    List.lookup k
        (((upsertEntry s ns k r).filter (fun e => e.1 = ns)).map
          (fun e => (e.2.1, e.2.2))) = some r := by
  induction s with
  | nil => simp [upsertEntry, List.lookup]
  | cons e rest ih =>
    unfold upsertEntry
    by_cases he : e.1 = ns ∧ e.2.1 = k
    · simp [he, List.lookup]
    · rw [if_neg he]
      by_cases hns : e.1 = ns
      · have hk : e.2.1 ≠ k := fun h => he ⟨hns, h⟩
        have hk' : (k == e.2.1) = false := by
          simp [Ne.symm hk]
        simp [hns, List.lookup, hk', ih]
      · simp [hns, ih]

/-- Saving then loading under the same namespace finds the saved record at
its key, on every backend variant. -/
lemma lookup_load_save (b : StorageBackend) (ns k : String)
    (r : TrackerRecord) :
    List.lookup k ((b.save ns k r).load ns) = some r := by
  cases b with
  | memory s =>
    simpa [StorageBackend.save, StorageBackend.load, StorageBackend.entries]
      using lookup_load_upsertEntry s ns k r
  | redis s =>
    simp [StorageBackend.save, StorageBackend.load, StorageBackend.entries,
      List.lookup]
  | mongo s =>
    simpa [StorageBackend.save, StorageBackend.load, StorageBackend.entries]
      using lookup_load_upsertEntry s ns k r

/-- Lookup commutes with mapping a function over the values of an
associative list. -/
lemma lookup_map_value {β γ : Type} (f : β → γ) (l : List (String × β))
    (k : String) :
    List.lookup k (l.map (fun e => (e.1, f e.2))) =
      (List.lookup k l).map f := by
  induction l with
  | nil => simp
  | cons e rest ih =>
    cases hbe : (k == e.1) <;> simp [List.lookup, hbe, ih]

/-- The record round trip preserves every field a condition snapshot
reads. -/
lemma toTracker_toRecord_equiv (t : Tracker) (ns : String) :
    t.equiv ((t.toRecord ns).toTracker) := by
  refine ⟨rfl, rfl, rfl, ?_⟩
  show t.conditions.map condSnapshot =
    ((t.conditions.map Condition.toRecord).map RecCondition.toCondition).map
      condSnapshot
  rw [List.map_map, List.map_map]
  rfl

/-- C5: flushing any Tracker to any StorageBackend variant and rehydrating a
fresh TrackerGroup from that backend and namespace yields a Tracker
equivalent to the original in state, per-condition progress and completion
flags, and timestamps. -/
theorem flush_rehydrate_round_trip (b : StorageBackend) (ns : String)
    (t : Tracker) :
    ∃ t' : Tracker,
      List.lookup t.key (TrackerGroup.rehydrate (flushTracker b ns t) ns).trackers
          = some t' ∧ t.equiv t' := by
  refine ⟨(t.toRecord ns).toTracker, ?_, toTracker_toRecord_equiv t ns⟩
  show List.lookup t.key
      (((flushTracker b ns t).load ns).map (fun e => (e.1, e.2.toTracker)))
    = some ((t.toRecord ns).toTracker)
  rw [lookup_map_value, flushTracker, lookup_load_save]
  rfl

/-- Over any sequence of permit calls a limiter grants at most its remaining
budget. -/
lemma permitSeq_le_budget (n : Nat) :
    ∀ l : Limiter, (l.permitSeq n).1 ≤ l.maxCount - l.count := by
  induction n with
  | zero =>
    intro l
    simp [Limiter.permitSeq]
  | succ n ih =>
    intro l
    unfold Limiter.permitSeq Limiter.permit
    by_cases h : l.count < l.maxCount
    · simp only [h, if_true]
      have := ih { l with count := l.count + 1 }
      simp only at this
      omega
    · simp [h]
      have := ih l
      omega

/-- C6: a Limiter with configured maximum M never permits more than M
firings over any sequence of permit calls without reset; and an active
Tracker whose conditions are satisfied but whose tracker-level limiter
denies the firing transitions to `expired`, and that `expired` state is
surfaced in the result returned to the caller of `track()`. -/
theorem limiter_bound_and_denial_expires :
    (∀ (l : Limiter) (n : Nat), l.count = 0 → (l.permitSeq n).1 ≤ l.maxCount) ∧
      (∀ (t : Tracker) (l : Limiter) (now : Nat) (d : Data),
        t.state = TrackerState.active → t.limiter = some l →
        l.maxCount ≤ l.count →
        completionMet t.conjunctive (t.evalConditions d) = true →
        (t.track now d).1.state = TrackerState.expired ∧
          (t.track now d).2.state = TrackerState.expired) := by
  constructor
  · intro l n hzero
    have := permitSeq_le_budget n l
    omega
  · intro t l now d hact hlim hspent hmet
    have hdeny : (l.permit).1 = false := by
      unfold Limiter.permit
      simp [Nat.not_lt.mpr hspent]
    unfold Tracker.track
    simp [hact, hlim, hmet, hdeny]

theorem limiter_bound_and_denial_expires_witness :
    sampleFreshLimiter.count = 0 ∧
      (sampleFreshLimiter.permitSeq 3).1 ≤ sampleFreshLimiter.maxCount ∧
      ((sampleLimitedTracker.track 6 []).1.state = TrackerState.expired ∧
        (sampleLimitedTracker.track 6 []).2.state = TrackerState.expired) :=
  ⟨rfl,
   limiter_bound_and_denial_expires.1 sampleFreshLimiter 3 rfl,
   limiter_bound_and_denial_expires.2 sampleLimitedTracker sampleSpentLimiter 6 []
     rfl rfl (by decide) (by decide)⟩

/-- C8: a sweep run over a sequence of configured TrackerGroups executes
every group's sweep step regardless of flush failures in earlier groups
(each failing group merely logs its error and keeps its pre-flush state),
and the run always terminates with a report covering every group. -/
theorem sweep_isolates_group_failures (now : Nat)
    (groups : List (TrackerGroup × StorageBackend × Bool)) :
    (sweepAll now groups).2.sweptGroups = groups.map (fun x => x.1.name) ∧
      (sweepAll now groups).1 = groups.map (fun x =>
        match sweepGroup now x.2.2 x.1 x.2.1 with
        | Except.ok gb => gb
        | Except.error _ => (x.1.checkTimeConditions now, x.2.1)) := by
  induction groups with
  | nil => exact ⟨rfl, rfl⟩
  | cons x rest ih =>
    obtain ⟨g, b, up⟩ := x
    unfold sweepAll
    cases h : sweepGroup now up g b <;>
      simp [h, ih.1, ih.2]

end Dictrack

namespace SetupPy

/-- C9: `get_version()` in setup.py returns exactly the value bound to
`__version__` by executing `app/dictrack/__init__.py`, for every content of
that file that executes successfully and defines `__version__`; hence the
`version` argument of any completed `setup(...)` call equals that
attribute. -/
theorem get_version_matches_dunder_version (env : SetupEnv) (m : PyModule)
    (v : String) (hexec : env.execVersionFile = Except.ok m)
    (hver : List.lookup "__version__" m.attrs = some v) :
    get_version env = Except.ok v ∧
      ∀ sc : SetupCall, runSetupPy env = Except.ok sc → sc.version = v := by
  have hgv : get_version env = Except.ok v := by
    unfold get_version
    cases hb : env.importlibAvailable <;> simp [hb, hexec, hver]
  refine ⟨hgv, ?_⟩
  intro sc hsc
  unfold runSetupPy at hsc
  rw [hgv] at hsc
  cases hld : longDescriptionOf env <;> rw [hld] at hsc <;> simp at hsc
  rw [← hsc]

theorem get_version_matches_dunder_version_witness :
    get_version sampleEnvPy3 = Except.ok "2.0.2" ∧
      ∀ sc : SetupCall, runSetupPy sampleEnvPy3 = Except.ok sc →
        sc.version = "2.0.2" :=
  get_version_matches_dunder_version sampleEnvPy3
    { attrs := [("__version__", "2.0.2")] } "2.0.2" rfl (by decide)

/-- C10: if opening README.md fails with any exception other than
`TypeError` (for example FileNotFoundError when the file does not exist),
executing setup.py aborts with that uncaught exception before `setup()` is
called: the surrounding try/except handles only `TypeError`. -/
theorem setup_aborts_on_nonTypeError_readme_failure (env : SetupEnv)
    (e : PyExc) (hopen : env.readmeOpenWithEncoding = Except.error e)
    (hne : e ≠ PyExc.typeError) :
    runSetupPy env = Except.error e := by
  unfold runSetupPy longDescriptionOf
  rw [hopen]
  simp [hne]

theorem setup_aborts_on_nonTypeError_readme_failure_witness :
    runSetupPy sampleEnvNoReadme = Except.error PyExc.fileNotFoundError :=
  setup_aborts_on_nonTypeError_readme_failure sampleEnvNoReadme
    PyExc.fileNotFoundError rfl (by decide)

end SetupPy
